import Mathlib

/-!
Verification of the BellNews alarm player service (`alarm_player.py`).

The Python service is shallowly embedded here.  `datetime.now()` is consumed
by the code only through four projections (`strftime("%A")`, `.hour`,
`.minute`, `strftime("%Y-%m-%d")`), so an instant is modelled as a record of
those four values.  The trigger ledger (`self.triggered_alarms`, a Python
dict from alarm key to date string) is modelled as a function
`String → Option String`.  External processes (ffmpeg, aplay) and the pygame
mixer are modelled by explicit outcome parameters, since their behaviour is
an input of the program, not part of it.
-/

namespace AlarmPlayer

/-- An alarm record as read from `alarms.json`.  `alarm.get('day')` yields
`none` when the key is absent; `alarm.get('time', '')` defaults to `""`,
which we model by `time.getD ""`; `alarm.get('id', alarm_time)` defaults
to the time string. -/
structure Alarm where
  id : Option String
  day : Option String
  time : Option String
  label : Option String
  sound : Option String
deriving Repr, DecidableEq

/-- The four projections of `datetime.now()` that `check_alarm_time` and the
monitor loop consume: `strftime("%A")`, `.hour`, `.minute`,
`strftime("%Y-%m-%d")`. -/
structure Now where
  dayName : String
  hour : Nat
  minute : Nat
  date : String
deriving Repr, DecidableEq

/-- The trigger ledger `self.triggered_alarms`: a dict mapping an alarm key
to the date string on which it last fired. -/
def Ledger : Type := String → Option String

/-- Python dict assignment `self.triggered_alarms[alarm_id] = today_date`. -/
def ledgerSet (k v : String) (L : Ledger) : Ledger :=
  fun k' => if k' = k then some v else L k'

/-- The dict comprehension in `monitor_alarms` that keeps only entries whose
stored date equals today:
`{k: v for k, v in self.triggered_alarms.items() if v == today_date}`. -/
def purgeLedger (today : String) (L : Ledger) : Ledger :=
  fun k => match L k with
    | some v => if v = today then some v else none
    | none => none

/-- The ASCII whitespace characters Python's `int()` strips from both ends
of its argument. -/
def isPySpace (c : Char) : Bool :=
  c = ' ' || c = '\t' || c = '\n' || c = '\r' || c = '\x0b' || c = '\x0c'

/-- Strip leading and trailing whitespace, as `int()` does. -/
def trimChars (cs : List Char) : List Char :=
  ((cs.dropWhile isPySpace).reverse.dropWhile isPySpace).reverse

/-- Value of a non-empty all-digit string. -/
def digitsToNat (cs : List Char) : Nat :=
  cs.foldl (fun acc c => acc * 10 + (c.toNat - '0'.toNat)) 0

/-- Python `int(s)` on a string: surrounding whitespace is ignored, an
optional single sign is allowed, and the rest must be one or more digits.
Returns `none` where Python raises `ValueError`. -/
def pyIntChars? (cs : List Char) : Option Int :=
  match trimChars cs with
  | '-' :: ds =>
    if ds ≠ [] ∧ ds.all Char.isDigit then some (-(digitsToNat ds : Int)) else none
  | '+' :: ds =>
    if ds ≠ [] ∧ ds.all Char.isDigit then some ((digitsToNat ds : Int)) else none
  | ds =>
    if ds ≠ [] ∧ ds.all Char.isDigit then some ((digitsToNat ds : Int)) else none

/-- Python `str.split(':')`: splits at every colon, keeping empty fields, and
yields one (possibly empty) field for an input with no colon. -/
def splitOnColon : List Char → List Char → List (List Char)
  | [], acc => [acc.reverse]
  | c :: rest, acc =>
    if c = ':' then acc.reverse :: splitOnColon rest []
    else splitOnColon rest (c :: acc)

/-- `alarm_hour, alarm_minute = map(int, alarm_time.split(':'))`: succeeds
exactly when the split on `':'` yields two fields and both parse as Python
ints; any other shape raises `ValueError`, modelled as `none`. -/
def parseAlarmTime (s : String) : Option (Int × Int) :=
  match splitOnColon s.toList [] with
  | [h, m] =>
    match pyIntChars? h, pyIntChars? m with
    | some a, some b => some (a, b)
    | _, _ => none
  | _ => none

/-- The ledger key computed in `check_alarm_time`:
`alarm_id = alarm.get('id', alarm_time)` where
`alarm_time = alarm.get('time', '')`. -/
def alarmKey (a : Alarm) : String :=
  a.id.getD (a.time.getD "")

/-- `AlarmPlayer.check_alarm_time(alarm, now)`, returning the Python return
value together with the trigger ledger after the call.  Branches follow the
source line by line; the `except` clause that catches a `ValueError` from
time parsing is the `none` branch of `parseAlarmTime`. -/
def checkAlarmTime (a : Alarm) (now : Now) (L : Ledger) : Bool × Ledger :=
  if a.day ≠ some now.dayName then
    (false, L)
  else
    let alarm_time := a.time.getD ""
    if alarm_time = "" then
      (false, L)
    else
      match parseAlarmTime alarm_time with
      | none => (false, L)
      | some (h, m) =>
        if (now.hour : Int) = h ∧ (now.minute : Int) = m then
          let key := alarmKey a
          let today := now.date
          match L key with
          | some d =>
            if d = today then (false, L)
            else (true, ledgerSet key today L)
          | none => (true, ledgerSet key today L)
        else
          (false, L)

/-- Whether `check_alarm_time` reaches its inner ledger check: day matches,
time is present, parses, and equals the instant's hour and minute. -/
def timeMatches (a : Alarm) (now : Now) : Bool :=
  (a.day == some now.dayName) &&
  (a.time.getD "" != "") &&
  (match parseAlarmTime (a.time.getD "") with
   | some (h, m) => ((now.hour : Int) == h) && ((now.minute : Int) == m)
   | none => false)

/-- A sequence of successive `check_alarm_time` calls on the same alarm,
threading the ledger; returns the list of results and the final ledger. -/
def evalSeq (a : Alarm) (L : Ledger) : List Now → List Bool × Ledger
  | [] => ([], L)
  | n :: ns =>
    let r := checkAlarmTime a n L
    let rest := evalSeq a r.2 ns
    (r.1 :: rest.1, rest.2)

/-- Outcome of reading and JSON-decoding `alarms.json`, the environment input
of `load_alarms`. -/
inductive ReadResult where
  | absent
  | badJson
  | ioError
  | parsedList (xs : List Alarm)
  | parsedOther
deriving Repr, DecidableEq

/-- `AlarmPlayer.load_alarms`: missing file, JSON decode error, any other
exception, and a non-list JSON value all yield `[]`; a JSON list is returned
as is. -/
def loadAlarms : ReadResult → List Alarm
  | .absent => []
  | .badJson => []
  | .ioError => []
  | .parsedList xs => xs
  | .parsedOther => []

/-- Mutable state of the monitor loop that survives an iteration:
`self.alarms`, `self.triggered_alarms` and the local `last_minute`. -/
structure LoopState where
  alarms : List Alarm
  ledger : Ledger
  lastMinute : Int

/-- The `for alarm in self.alarms` pass of `monitor_alarms`: each alarm is
checked in order, threading the trigger ledger (triggering itself spawns a
playback thread and does not touch the ledger). -/
def checkAll (now : Now) : List Alarm → Ledger → Ledger
  | [], L => L
  | a :: as, L => checkAll now as (checkAlarmTime a now L).2

/-- One iteration of the `while` body of `monitor_alarms`: on a minute edge,
reload the alarms and evaluate each against `check_alarm_time`; then, on
every iteration, purge ledger entries whose date is not today. -/
def monitorStep (readRes : ReadResult) (now : Now) (s : LoopState) : LoopState :=
  let s1 :=
    if (now.minute : Int) ≠ s.lastMinute then
      let alarms := loadAlarms readRes
      let ledger := checkAll now alarms s.ledger
      { alarms := alarms, ledger := ledger, lastMinute := (now.minute : Int) }
    else s
  { s1 with ledger := purgeLedger now.date s1.ledger }

/-- Outcome of the ffmpeg transcoding subprocess in the simpleaudio branch of
`play_sound`.  `outputCreated` records whether ffmpeg left the `_temp.wav`
output file behind (with `-y` it opens the output before decoding, so a
failed or killed run can leave a partial file); this is behaviour of the
external process, hence a parameter of the model. -/
inductive TranscodeOutcome where
  | ok
  | fail (outputCreated : Bool)
  | timeout (outputCreated : Bool)
  | exc
deriving Repr, DecidableEq

/-- Outcome of the aplay subprocess: exit 0, non-zero exit, timeout
(`subprocess.TimeoutExpired`, caught by the `except Exception` clause), or
any other exception. -/
inductive PlayOutcome where
  | ok
  | fail
  | timeout
  | exc
deriving Repr, DecidableEq

/-- The simpleaudio/aplay branch of `AlarmPlayer.play_sound` (source lines
165–217), for a sound file that exists.  `compressed` is the
`sound_file.lower().endswith(('.mp3', '.ogg'))` test.  Returns the Python
return value together with whether the `_temp.wav` sibling file exists after
the call returns.  The `finally` block around the aplay call deletes the
temp file whenever `temp_file` was set, i.e. whenever transcoding succeeded;
the transcode-failure and transcode-timeout branches return before
`temp_file` is set and run no cleanup. -/
def playSoundExternal (compressed : Bool) (t : TranscodeOutcome)
    (p : PlayOutcome) : Bool × Bool :=
  if compressed then
    match t with
    | .ok =>
      -- temp file created and `temp_file` set; aplay runs inside
      -- try/except/finally, and the finally unlinks the temp file on
      -- every exit path of the playback step.
      match p with
      | .ok => (true, false)
      | .fail => (false, false)
      | .timeout => (false, false)
      | .exc => (false, false)
    | .fail c => (false, c)
    | .timeout c => (false, c)
    | .exc => (false, false)
  else
    -- no transcoding: `temp_file` stays None, no sibling file ever exists.
    match p with
    | .ok => (true, false)
    | .fail => (false, false)
    | .timeout => (false, false)
    | .exc => (false, false)

/-- State of `pygame.mixer.music`: the single music stream, holding at most
one loaded track and at most one currently playing track. -/
structure MixerMusic where
  loaded : Option String
  current : Option String
deriving Repr, DecidableEq

/-- Observable mixer events, used to state ordering properties. -/
inductive MusicEvent where
  | stopped (track : String)
  | started (track : String)
deriving Repr, DecidableEq

/-- `pygame.mixer.music.load(path)`: per the pygame contract, loading stops
the music stream if it is already playing, then stages the new file. -/
def musicLoad (track : String) (s : MixerMusic) : MixerMusic × List MusicEvent :=
  match s.current with
  | some c => ({ loaded := some track, current := none }, [.stopped c])
  | none => ({ s with loaded := some track }, [])

/-- `pygame.mixer.music.play()`: starts the staged track on the stream. -/
def musicPlay (s : MixerMusic) : MixerMusic × List MusicEvent :=
  match s.loaded with
  | some t => ({ s with current := some t }, [.started t])
  | none => (s, [])

/-- The pygame branch of `AlarmPlayer.play_sound` (source lines 153–163):
`load` then `play` on the single music stream, then a busy-wait until
`get_busy()` clears.  Returns the final mixer state and the event trace. -/
def playSoundPygame (track : String) (s : MixerMusic) :
    MixerMusic × List MusicEvent :=
  let r1 := musicLoad track s
  let r2 := musicPlay r1.1
  (r2.1, r1.2 ++ r2.2)

/-- The module-level `play_object` handle: the tracked audio operation, with
its `is_playing()` flag. -/
structure PlayObj where
  playing : Bool
deriving Repr, DecidableEq

/-- Process-level state consulted by `signal_handler` and the monitor loop
guard: the `shutdown_requested` flag and the tracked `play_object`. -/
structure ProcState where
  shutdownRequested : Bool
  playObject : Option PlayObj
deriving Repr, DecidableEq

/-- `signal_handler(signum, frame)`: sets `shutdown_requested`, stops
`play_object` if it exists and is playing, then calls `sys.exit(0)`.  The
second component is the exited flag (`sys.exit` is reached on every path,
after the stop). -/
def signalHandler (s : ProcState) : ProcState × Bool :=
  match s.playObject with
  | some po =>
    if po.playing then
      ({ shutdownRequested := true, playObject := some { playing := false } }, true)
    else
      ({ shutdownRequested := true, playObject := some po }, true)
  | none => ({ shutdownRequested := true, playObject := none }, true)

/-- Number of further `while not shutdown_requested` iterations the monitor
loop performs from a given process state, for any remaining fuel: the loop
body never clears the flag, so once `shutdown_requested` is set no
iteration runs. -/
def furtherIterations (s : ProcState) : Nat → Nat
  | 0 => 0
  | fuel + 1 =>
    if s.shutdownRequested then 0
    else furtherIterations s fuel + 1

/-! ## Characterization lemmas -/

/-- `check_alarm_time` normal form: the call is a no-op returning `False`
unless day, presence, parse and hour:minute all line up, in which case the
ledger decides and is check-and-set atomically. -/
theorem checkAlarmTime_eq (a : Alarm) (n : Now) (L : Ledger) :
    checkAlarmTime a n L =
      if timeMatches a n then
        if L (alarmKey a) = some n.date then (false, L)
        else (true, ledgerSet (alarmKey a) n.date L)
      else (false, L) := by
  by_cases hd : a.day = some n.dayName
  · by_cases ht : a.time.getD "" = ""
    · simp [checkAlarmTime, timeMatches, hd, ht]
    · rcases hp : parseAlarmTime (a.time.getD "") with _ | ⟨h, m⟩
      · simp [checkAlarmTime, timeMatches, hd, ht, hp]
      · by_cases hhm : (n.hour : Int) = h ∧ (n.minute : Int) = m
        · rcases hL : L (a.id.getD (a.time.getD "")) with _ | d
          · simp [checkAlarmTime, timeMatches, alarmKey, hd, ht, hp, hhm.1, hhm.2, hL]
          · by_cases hdate : d = n.date
            · simp [checkAlarmTime, timeMatches, alarmKey, hd, ht, hp, hhm.1, hhm.2,
                hL, hdate]
            · simp [checkAlarmTime, timeMatches, alarmKey, hd, ht, hp, hhm.1, hhm.2,
                hL, hdate]
        · simp only [not_and_or] at hhm
          rcases hhm with hh | hm
          · simp [checkAlarmTime, timeMatches, alarmKey, hd, ht, hp, hh]
          · simp [checkAlarmTime, timeMatches, alarmKey, hd, ht, hp, hm]
  · simp [checkAlarmTime, timeMatches, hd]

theorem ledgerSet_self (k v : String) (L : Ledger) : ledgerSet k v L k = some v := by
  simp [ledgerSet]

/-- A ledger entry for today makes `check_alarm_time` a silent no-match. -/
theorem checkAlarmTime_false_of_entry (a : Alarm) (n : Now) (L : Ledger)
    (hL : L (alarmKey a) = some n.date) : checkAlarmTime a n L = (false, L) := by
  rw [checkAlarmTime_eq]
  split
  · simp [hL]
  · rfl

/-- Once the ledger holds today's date for the alarm, a whole run of further
same-date evaluations yields only `False` results. -/
theorem evalSeq_all_false (a : Alarm) (D : String) :
    ∀ (ns : List Now) (L : Ledger), L (alarmKey a) = some D →
      (∀ n ∈ ns, n.date = D) →
      (evalSeq a L ns).1 = List.replicate ns.length false
  | [], _, _, _ => rfl
  | n :: ns, L, hL, hall => by
    have hd : n.date = D := hall n (List.mem_cons_self n ns)
    have hfalse : checkAlarmTime a n L = (false, L) :=
      checkAlarmTime_false_of_entry a n L (hd ▸ hL)
    simp only [evalSeq, hfalse, List.length_cons, List.replicate]
    exact congrArg (false :: ·)
      (evalSeq_all_false a D ns L hL (fun m hm => hall m (List.mem_cons_of_mem n hm)))

/-- An unparseable or out-of-range scheduled time can never equal a valid
wall-clock hour:minute, so the match condition is false. -/
theorem timeMatches_false_of_bad_time (a : Alarm) (n : Now)
    (hh : n.hour < 24) (hm : n.minute < 60)
    (hbad : parseAlarmTime (a.time.getD "") = none ∨
      ∃ h m, parseAlarmTime (a.time.getD "") = some (h, m) ∧
        (h < 0 ∨ 24 ≤ h ∨ m < 0 ∨ 60 ≤ m)) :
    timeMatches a n = false := by
  rcases hbad with hnone | ⟨h, m, hp, hout⟩
  · simp [timeMatches, hnone]
  · have hfalse : (((n.hour : Int) == h) && ((n.minute : Int) == m)) = false := by
      rcases hout with h1 | h1 | h1 | h1
      · have hne : ((n.hour : Int) == h) = false := by
          rw [beq_eq_false_iff_ne]
          omega
        simp [hne]
      · have hne : ((n.hour : Int) == h) = false := by
          rw [beq_eq_false_iff_ne]
          omega
        simp [hne]
      · have hne : ((n.minute : Int) == m) = false := by
          rw [beq_eq_false_iff_ne]
          omega
        simp [hne]
      · have hne : ((n.minute : Int) == m) = false := by
          rw [beq_eq_false_iff_ne]
          omega
        simp [hne]
    simp [timeMatches, hp, hfalse]

/-- A record whose `time` does not parse, or parses outside the clock range,
is a silent no-match with the ledger untouched. -/
theorem checkAlarmTime_of_bad_time (a : Alarm) (n : Now) (L : Ledger)
    (hh : n.hour < 24) (hm : n.minute < 60)
    (hbad : parseAlarmTime (a.time.getD "") = none ∨
      ∃ h m, parseAlarmTime (a.time.getD "") = some (h, m) ∧
        (h < 0 ∨ 24 ≤ h ∨ m < 0 ∨ 60 ≤ m)) :
    checkAlarmTime a n L = (false, L) := by
  rw [checkAlarmTime_eq, timeMatches_false_of_bad_time a n hh hm hbad]
  simp

/-- Every surviving entry of a purge carries the purge date. -/
theorem purgeLedger_sound (d : String) (L : Ledger) (k v : String)
    (h : purgeLedger d L k = some v) : v = d := by
  unfold purgeLedger at h
  split at h
  · rename_i w hw
    split at h
    · rename_i hwd
      cases h
      exact hwd
    · cases h
  · cases h

theorem signalHandler_shutdown (s : ProcState) :
    (signalHandler s).1.shutdownRequested = true := by
  unfold signalHandler
  split
  · split <;> rfl
  · rfl

/-! ## Claim theorems -/

/-- C1: an alarm whose `day` and `time` match the current instant fires
exactly once per calendar date — the first evaluation returns `True`, and
every further evaluation of the same alarm on the same date (matching or
not, however many there are) returns `False`. -/
theorem check_fires_once_per_date (a : Alarm) (D : String) (L : Ledger)
    (n0 : Now) (ns : List Now)
    (hd0 : n0.date = D) (hm0 : timeMatches a n0 = true)
    (hdates : ∀ n ∈ ns, n.date = D)
    (hfresh : L (alarmKey a) ≠ some D) :
    (evalSeq a L (n0 :: ns)).1 = true :: List.replicate ns.length false := by
  have hfirst : checkAlarmTime a n0 L = (true, ledgerSet (alarmKey a) n0.date L) := by
    rw [checkAlarmTime_eq, if_pos hm0, if_neg (by rw [hd0]; exact hfresh)]
  have hset : ledgerSet (alarmKey a) n0.date L (alarmKey a) = some D := by
    rw [ledgerSet_self, hd0]
  simp only [evalSeq, hfirst]
  exact congrArg (true :: ·) (evalSeq_all_false a D ns _ hset hdates)

/-- C1 witness: alarm `a1`, scheduled Monday 07:00, evaluated twice in the
same minute of the same date: results are `[true, false]`. -/
theorem check_fires_once_per_date_witness :
    (evalSeq ⟨some "a1", some "Monday", some "07:00", none, some "bell.wav"⟩
      (fun _ => none)
      [⟨"Monday", 7, 0, "2025-01-06"⟩, ⟨"Monday", 7, 0, "2025-01-06"⟩]).1 =
      [true, false] :=
  check_fires_once_per_date _ "2025-01-06" _ _ _
    (by decide) (by decide) (by decide) (by decide)

/-- C2: a record whose `time` is malformed (does not split into two
integer-parseable colon-separated fields) or denotes an impossible clock
value never matches; `check_alarm_time` returns `False` with the ledger
unchanged, and (being a total function here, the `ValueError` being caught
inside) never propagates an exception. -/
theorem check_malformed_time_no_match (a : Alarm) (n : Now) (L : Ledger)
    (hh : n.hour < 24) (hm : n.minute < 60)
    (hbad : parseAlarmTime (a.time.getD "") = none ∨
      ∃ h m, parseAlarmTime (a.time.getD "") = some (h, m) ∧
        (h < 0 ∨ 24 ≤ h ∨ m < 0 ∨ 60 ≤ m)) :
    checkAlarmTime a n L = (false, L) :=
  checkAlarmTime_of_bad_time a n L hh hm hbad

/-- C2 witness: the impossible time `"25:61"` at Monday 07:00 is a no-match
with the ledger unchanged. -/
theorem check_malformed_time_no_match_witness :
    checkAlarmTime ⟨some "a1", some "Monday", some "25:61", none, some "bell.wav"⟩
      ⟨"Monday", 7, 0, "2025-01-06"⟩ (fun _ => none) =
      (false, fun _ => none) :=
  check_malformed_time_no_match _ _ _ (by decide) (by decide)
    (Or.inr ⟨25, 61, by decide, by omega⟩)

/-- C3 counterexample: on the external-process backend, when ffmpeg
transcoding of a compressed file times out after having created the sibling
WAV file, `play_sound` returns `False` with the temporary file still
present — the claimed every-exit-path cleanup does not cover this path. -/
theorem transcode_timeout_leaves_temp :
    playSoundExternal true (TranscodeOutcome.timeout true) PlayOutcome.ok =
      (false, true) := rfl

/-- C3 (amended): the temporary sibling file exists after `play_sound`
returns exactly when the input was compressed and the transcoding step
failed or timed out after creating it; on every path that reaches the
playback step (and on uncompressed input) the `finally` block removes it. -/
theorem playSound_temp_cleanup :
    ∀ (c : Bool) (t : TranscodeOutcome) (p : PlayOutcome),
      (playSoundExternal c t p).2 =
        (c && (match t with
               | .fail created => created
               | .timeout created => created
               | _ => false)) := by
  rintro c t p
  cases c <;> cases t <;> cases p <;> simp [playSoundExternal]

/-- C4: on the pygame backend, playing while a prior clip is live first
stops the prior clip (the `load` contract), then starts the new one: the
event trace is exactly stop-then-start, the stream is silent in between,
and the single music stream carries at most one clip at any point. -/
theorem pygame_stops_before_start (f : String) (s : MixerMusic) (c : String)
    (h : s.current = some c) :
    (playSoundPygame f s).2 = [.stopped c, .started f] ∧
    (musicLoad f s).1.current = none ∧
    (playSoundPygame f s).1.current = some f := by
  simp [playSoundPygame, musicLoad, musicPlay, h]

/-- C4 witness: a new clip interrupting a live one produces the trace
stop-old-then-start-new. -/
theorem pygame_stops_before_start_witness :
    (playSoundPygame "bell.wav" ⟨none, some "old.wav"⟩).2 =
      [.stopped "old.wav", .started "bell.wav"] ∧
    (musicLoad "bell.wav" ⟨none, some "old.wav"⟩).1.current = none ∧
    (playSoundPygame "bell.wav" ⟨none, some "old.wav"⟩).1.current =
      some "bell.wav" :=
  pygame_stops_before_start "bell.wav" ⟨none, some "old.wav"⟩ "old.wav" rfl

/-- C5: `signal_handler` reaches `sys.exit` on every path, leaves no tracked
`play_object` in a playing state, and — having set `shutdown_requested` —
the monitor loop performs no further iterations for any remaining fuel. -/
theorem signal_handler_stops_and_exits (s : ProcState) (fuel : Nat) :
    (signalHandler s).2 = true ∧
    (∀ po, (signalHandler s).1.playObject = some po → po.playing = false) ∧
    furtherIterations (signalHandler s).1 fuel = 0 := by
  refine ⟨?_, ?_, ?_⟩
  · unfold signalHandler
    split
    · split <;> rfl
    · rfl
  · intro po hpo
    unfold signalHandler at hpo
    split at hpo
    · rename_i q hq
      split at hpo
      · cases hpo
        rfl
      · rename_i hnp
        cases hpo
        exact Bool.not_eq_true _ ▸ hnp
    · cases hpo
  · cases fuel with
    | zero => rfl
    | succ n => simp [furtherIterations, signalHandler_shutdown]

/-- C5 witness: a playing tracked handle is stopped by the handler, the
handler exits, and zero loop iterations remain. -/
theorem signal_handler_stops_and_exits_witness :
    (signalHandler ⟨false, some ⟨true⟩⟩).2 = true ∧
    (⟨false⟩ : PlayObj).playing = false ∧
    furtherIterations (signalHandler ⟨false, some ⟨true⟩⟩).1 3 = 0 :=
  ⟨(signal_handler_stops_and_exits ⟨false, some ⟨true⟩⟩ 3).1,
   (signal_handler_stops_and_exits ⟨false, some ⟨true⟩⟩ 3).2.1 ⟨false⟩ (by decide),
   (signal_handler_stops_and_exits ⟨false, some ⟨true⟩⟩ 3).2.2⟩

/-- C6: `load_alarms` is total and always yields a list: a missing file,
invalid JSON, any other read error, and a non-list JSON value each produce
the empty list, and a JSON list is returned as is. -/
theorem loadAlarms_never_fails :
    loadAlarms ReadResult.absent = [] ∧
    loadAlarms ReadResult.badJson = [] ∧
    loadAlarms ReadResult.ioError = [] ∧
    loadAlarms ReadResult.parsedOther = [] ∧
    ∀ xs : List Alarm, loadAlarms (ReadResult.parsedList xs) = xs :=
  ⟨rfl, rfl, rfl, rfl, fun _ => rfl⟩

/-- C7: after any iteration of the monitoring loop — minute edge or not —
every entry remaining in the trigger ledger is dated today; the per-cycle
purge removes all others. -/
theorem monitor_purges_stale_entries (rr : ReadResult) (now : Now)
    (s : LoopState) (k v : String)
    (h : (monitorStep rr now s).ledger k = some v) : v = now.date := by
  simp only [monitorStep] at h
  exact purgeLedger_sound _ _ _ _ h

/-- C7 witness: a ledger holding a stale entry and a current one keeps only
the current one across a non-edge iteration. -/
theorem monitor_purges_stale_entries_witness : ("2025-01-06" : String) = "2025-01-06" :=
  monitor_purges_stale_entries ReadResult.absent
    ⟨"Monday", 7, 0, "2025-01-06"⟩
    ⟨[], fun k => if k = "a1" then some "2025-01-05"
          else if k = "a2" then some "2025-01-06" else none, 0⟩
    "a2" "2025-01-06" (by decide)

/-- C8: an alarm that fired on one date and is evaluated at a matching
weekday/time on a different (e.g. the next) date fires again: a prior day's
ledger entry never suppresses a later date's match. -/
theorem prior_day_entry_never_suppresses (a : Alarm) (n1 n2 : Now) (L : Ledger)
    (hdates : n1.date ≠ n2.date)
    (h1 : (checkAlarmTime a n1 L).1 = true)
    (h2 : timeMatches a n2 = true) :
    (checkAlarmTime a n2 (checkAlarmTime a n1 L).2).1 = true := by
  have heq2 : (checkAlarmTime a n1 L).2 = ledgerSet (alarmKey a) n1.date L := by
    rw [checkAlarmTime_eq] at h1 ⊢
    split at h1
    · split at h1
      · simp at h1
      · rename_i hm1 hL
        rw [if_pos hm1, if_neg hL]
    · simp at h1
  have hne : ¬ (ledgerSet (alarmKey a) n1.date L (alarmKey a) = some n2.date) := by
    rw [ledgerSet_self]
    exact fun hcon => hdates (Option.some.inj hcon)
  rw [heq2, checkAlarmTime_eq, if_pos h2, if_neg hne]

/-- C8 witness: alarm `a1` fires Monday 2025-01-06 at 07:00 and fires again
on Monday 2025-01-13 at 07:00 despite the retained ledger entry. -/
theorem prior_day_entry_never_suppresses_witness :
    (checkAlarmTime ⟨some "a1", some "Monday", some "07:00", none, some "bell.wav"⟩
      ⟨"Monday", 7, 0, "2025-01-13"⟩
      (checkAlarmTime ⟨some "a1", some "Monday", some "07:00", none, some "bell.wav"⟩
        ⟨"Monday", 7, 0, "2025-01-06"⟩ (fun _ => none)).2).1 = true :=
  prior_day_entry_never_suppresses _ _ _ _ (by decide) (by decide) (by decide)

/-- C9: `check_alarm_time` mutates the trigger ledger exactly when it
returns `True`, and then only by setting the alarm's key to today's date;
every `False` return leaves the ledger untouched. -/
theorem check_ledger_frame (a : Alarm) (n : Now) (L : Ledger) :
    (checkAlarmTime a n L).2 =
      if (checkAlarmTime a n L).1 then ledgerSet (alarmKey a) n.date L else L := by
  rw [checkAlarmTime_eq]
  split
  · split <;> simp
  · simp

/-- C10: time parsing is lenient — any string splitting on `':'` into two
integer-parseable fields parses, so `"7:5"` behaves exactly like `"07:05"`
(given a present `id`, so the ledger key is unaffected), and out-of-range
values such as `"25:61"` parse without error yet never equal a real clock
hour:minute. -/
theorem lenient_time_parsing :
    (∀ (s : String) (hs ms : List Char) (x y : Int),
      splitOnColon s.toList [] = [hs, ms] →
      pyIntChars? hs = some x → pyIntChars? ms = some y →
      parseAlarmTime s = some (x, y)) ∧
    parseAlarmTime "7:5" = some (7, 5) ∧
    parseAlarmTime "07:05" = some (7, 5) ∧
    parseAlarmTime "25:61" = some (25, 61) ∧
    (∀ (a : Alarm) (n : Now) (L : Ledger), n.hour < 24 → n.minute < 60 →
      parseAlarmTime (a.time.getD "") = some (25, 61) →
      checkAlarmTime a n L = (false, L)) ∧
    (∀ (a : Alarm) (n : Now) (L : Ledger), a.id.isSome = true →
      checkAlarmTime { a with time := some "7:5" } n L =
      checkAlarmTime { a with time := some "07:05" } n L) := by
  refine ⟨?_, by decide, by decide, by decide, ?_, ?_⟩
  · intro s hs ms x y hsplit hx hy
    simp only [String.toList] at hsplit
    simp [parseAlarmTime, hsplit, hx, hy]
  · intro a n L hh hm hp
    exact checkAlarmTime_of_bad_time a n L hh hm (Or.inr ⟨25, 61, hp, by omega⟩)
  · intro a n L hid
    obtain ⟨i, hi⟩ := Option.isSome_iff_exists.mp hid
    have e1 : parseAlarmTime "7:5" = some (7, 5) := by decide
    have e2 : parseAlarmTime "07:05" = some (7, 5) := by decide
    have hmeq : timeMatches { a with time := some "7:5" } n =
        timeMatches { a with time := some "07:05" } n := by
      simp [timeMatches, e1, e2]
    have hkeq : alarmKey { a with time := some "7:5" } =
        alarmKey { a with time := some "07:05" } := by
      simp [alarmKey, hi]
    rw [checkAlarmTime_eq, checkAlarmTime_eq, hmeq, hkeq]

/-- C10 witness: with an `id` present, an alarm scheduled `"7:5"` and one
scheduled `"07:05"` behave identically at Friday 07:05. -/
theorem lenient_time_parsing_witness :
    checkAlarmTime ⟨some "a9", some "Friday", some "7:5", none, none⟩
      ⟨"Friday", 7, 5, "2025-01-10"⟩ (fun _ => none) =
    checkAlarmTime ⟨some "a9", some "Friday", some "07:05", none, none⟩
      ⟨"Friday", 7, 5, "2025-01-10"⟩ (fun _ => none) :=
  lenient_time_parsing.2.2.2.2.2
    ⟨some "a9", some "Friday", some "xx", none, none⟩
    ⟨"Friday", 7, 5, "2025-01-10"⟩ (fun _ => none) rfl

end AlarmPlayer
